import Mathlib

/-!
Shallow embedding of the order and invoice settlement engine of the
whatsapp-business-automation repository: order creation and pricing
(routes/orders, create handler), the order schema pre-save hook
(models/Order: order number generation and amountDue), inventory updates
with the schema validator `inventory.quantity: min 0` (models/Product),
order status updates and cancellation (routes/orders), invoice payment
recording (routes/invoices) and the invoice pre-save hooks
(models/Invoice: invoice number and amount-in-words).

JavaScript numbers are embedded as rationals, statuses as the strings the
code stores, collections as lists of documents.
-/

/-- JavaScript `a || b` for an optional numeric field: a missing value and
`0` are falsy and fall through to the default. -/
def jsOr (a : Option ℚ) (b : ℚ) : ℚ :=
  match a with
  | none => b
  | some x => if x = 0 then b else x

/-- `inventory` subdocument of the product schema (models/Product). -/
structure ProductInventory where
  quantity : ℚ
  trackInventory : Bool
  deriving Repr, DecidableEq

/-- A product document: the fields the settlement engine reads. -/
structure Product where
  id : Nat
  name : String
  sku : String
  sellingPrice : ℚ
  taxRate : ℚ
  inventory : ProductInventory
  deriving Repr, DecidableEq

/-- `Product.findById`. -/
def findById (store : List Product) (pid : Nat) : Option Product :=
  store.find? (fun p => p.id == pid)

/-- `product.save()`: mongoose runs the schema validators, and
`inventory.quantity` has `min: 0`, so a save that would persist a negative
quantity is rejected and the stored document is left unchanged. -/
def saveProduct (store : List Product) (p : Product) : Option (List Product) :=
  if p.inventory.quantity < 0 then none
  else some (store.map (fun q => if q.id == p.id then p else q))

/-- A line item as it arrives in the create-order request body. -/
structure OrderItemIn where
  product : Nat
  quantity : ℚ
  unitPrice : Option ℚ
  discount : Option ℚ
  taxRate : Option ℚ
  deriving Repr, DecidableEq

/-- A processed line item as pushed onto `processedItems` and stored on the
order (snapshot of name, sku, price, discount, tax and total). -/
structure OrderItem where
  product : Nat
  productName : String
  sku : String
  quantity : ℚ
  unitPrice : ℚ
  discount : ℚ
  taxRate : ℚ
  taxAmount : ℚ
  total : ℚ
  deriving Repr, DecidableEq

/-- Errors of the create-order handler: the 400 responses of the route and
the thrown mongoose validation error (caught as a 500). -/
inductive CreateErr where
  | customerNotFound
  | productNotFound (pid : Nat)
  | productSaveFailed (pid : Nat)
  deriving Repr, DecidableEq

/-- The per-item loop of the create-order route: validates the product,
prices the line, and decrements tracked inventory item by item, saving each
product before the next item is examined. A failure aborts the loop but the
saves already performed stay in the store. Returns the store as left by the
loop, and on success the processed items and their running subtotal. -/
def processItems (store : List Product) (items : List OrderItemIn) :
    List Product × Except CreateErr (List OrderItem × ℚ) :=
  match items with
  | [] => (store, Except.ok ([], 0))
  | item :: rest =>
    match findById store item.product with
    | none => (store, Except.error (CreateErr.productNotFound item.product))
    | some product =>
      let unitPrice := jsOr item.unitPrice product.sellingPrice
      let discount := jsOr item.discount 0
      let taxRate := jsOr item.taxRate product.taxRate
      let taxableAmount := unitPrice * item.quantity - discount
      let taxAmount := taxableAmount * (taxRate / 100)
      let itemTotal := taxableAmount + taxAmount
      let oi : OrderItem :=
        ⟨item.product, product.name, product.sku, item.quantity,
          unitPrice, discount, taxRate, taxAmount, itemTotal⟩
      if product.inventory.trackInventory then
        let updated := { product with
          inventory := { product.inventory with
            quantity := product.inventory.quantity - item.quantity } }
        match saveProduct store updated with
        | none => (store, Except.error (CreateErr.productSaveFailed item.product))
        | some store2 =>
          match processItems store2 rest with
          | (store3, Except.error e) => (store3, Except.error e)
          | (store3, Except.ok (pis, sub)) =>
            (store3, Except.ok (oi :: pis, itemTotal + sub))
      else
        match processItems store rest with
        | (store3, Except.error e) => (store3, Except.error e)
        | (store3, Except.ok (pis, sub)) =>
          (store3, Except.ok (oi :: pis, itemTotal + sub))
termination_by structural items

/-- The fields of a JavaScript `Date` the numbering hooks read:
`getFullYear()`, `getMonth()` (zero-based) and `getDate()`. -/
structure JsDate where
  fullYear : Nat
  monthIndex : Nat
  day : Nat
  deriving Repr, DecidableEq

/-- `String.prototype.padStart(width, "0")`. -/
def padStart (width : Nat) (s : String) : String :=
  if s.length ≥ width then s
  else String.mk (List.replicate (width - s.length) ('0')) ++ s

/-- `String.prototype.slice(-2)`: the last two characters. -/
def sliceLastTwo (s : String) : String :=
  if s.length ≤ 2 then s else s.drop (s.length - 2)

/-- The order number built by the order schema pre-save hook from the
current date and `countDocuments` over the owner's orders. -/
def genOrderNumber (date : JsDate) (count : Nat) : String :=
  "ORD/" ++ sliceLastTwo (toString date.fullYear)
    ++ padStart 2 (toString (date.monthIndex + 1))
    ++ "/" ++ padStart 4 (toString (count + 1))

/-- The invoice number built by the invoice schema pre-save hook. -/
def genInvoiceNumber (date : JsDate) (count : Nat) : String :=
  "INV/" ++ sliceLastTwo (toString date.fullYear)
    ++ padStart 2 (toString (date.monthIndex + 1))
    ++ padStart 2 (toString date.day)
    ++ "/" ++ padStart 4 (toString (count + 1))

/-- One entry of `order.tracking.history`. -/
structure TrackingEntry where
  status : String
  location : String
  timestamp : Nat
  notes : String
  deriving Repr, DecidableEq

/-- The `pricing` block of an order document. -/
structure OrderPricing where
  subtotal : ℚ
  totalDiscount : ℚ
  totalTax : ℚ
  shipping : ℚ
  packaging : ℚ
  total : ℚ
  amountPaid : ℚ
  amountDue : ℚ
  deriving Repr, DecidableEq

/-- An order document: the fields the engine reads or writes. -/
structure Order where
  user : Nat
  customer : Nat
  orderNumber : Option String
  items : List OrderItem
  status : String
  pricing : OrderPricing
  trackingHistory : List TrackingEntry
  actualDelivery : Option Nat
  internalNotes : Option String
  cancellationReason : Option String
  cancelledAt : Option Nat
  deriving Repr, DecidableEq

/-- `Order.countDocuments({ user })`. -/
def countOrdersOfUser (orders : List Order) (userId : Nat) : Nat :=
  (orders.filter (fun o => o.user == userId)).length

/-- The order schema pre-save hook: assigns `orderNumber` when it is not
yet set, from the per-owner document count, and recomputes
`pricing.amountDue = pricing.total - pricing.amountPaid` on every save. -/
def orderPreSave (orders : List Order) (date : JsDate) (o : Order) : Order :=
  let o1 :=
    match o.orderNumber with
    | some _ => o
    | none =>
      let n := genOrderNumber date (countOrdersOfUser orders o.user)
      { o with orderNumber := some n }
  { o1 with pricing :=
      { o1.pricing with amountDue := o1.pricing.total - o1.pricing.amountPaid } }

/-- A customer document: the aggregate counters the engine updates. -/
structure Customer where
  id : Nat
  user : Nat
  totalOrders : Nat
  totalSpent : ℚ
  averageOrderValue : ℚ
  lastOrderDate : Option Nat
  deriving Repr, DecidableEq

/-- The customer schema pre-save hook: recomputes `averageOrderValue` when
both counters are positive. -/
def customerPreSave (c : Customer) : Customer :=
  if 0 < c.totalOrders ∧ 0 < c.totalSpent then
    { c with averageOrderValue := c.totalSpent / (c.totalOrders : ℚ) }
  else c

/-- The optional `pricing` object of the create-order request body. -/
structure PricingIn where
  shipping : Option ℚ
  packaging : Option ℚ
  amountPaid : Option ℚ
  deriving Repr, DecidableEq

/-- The create-order request body. -/
structure CreateOrderReq where
  customer : Nat
  items : List OrderItemIn
  pricing : Option PricingIn
  deriving Repr, DecidableEq

/-- The three collections the create-order handler touches. -/
structure Stores where
  customers : List Customer
  products : List Product
  orders : List Order
  deriving Repr, DecidableEq

/-- The create-order route handler: validates the customer, runs the
per-item loop (decrementing tracked inventory as it goes), builds the
pricing block, saves the order (running the pre-save hook) and updates the
customer counters. On an error the loop's inventory saves stay persisted,
but no order is stored and the customer is untouched. -/
def createOrder (userId : Nat) (date : JsDate) (now : Nat) (st : Stores)
    (req : CreateOrderReq) : Stores × Except CreateErr Order :=
  match st.customers.find? (fun c => c.id == req.customer && c.user == userId) with
  | none => (st, Except.error CreateErr.customerNotFound)
  | some customer =>
    match processItems st.products req.items with
    | (products2, Except.error e) =>
      ({ st with products := products2 }, Except.error e)
    | (products2, Except.ok (processedItems, subtotal)) =>
      let shipping := jsOr (req.pricing.bind (fun p => p.shipping)) 0
      let packaging := jsOr (req.pricing.bind (fun p => p.packaging)) 0
      let amountPaid := jsOr (req.pricing.bind (fun p => p.amountPaid)) 0
      let pricing : OrderPricing :=
        { subtotal := subtotal
          totalDiscount := (req.items.map (fun i => jsOr i.discount 0)).sum
          totalTax := (processedItems.map (fun i => i.taxAmount)).sum
          shipping := shipping
          packaging := packaging
          total := subtotal + shipping + packaging
          amountPaid := amountPaid
          amountDue := subtotal + shipping - amountPaid }
      let order0 : Order :=
        { user := userId, customer := customer.id, orderNumber := none,
          items := processedItems, status := "pending", pricing := pricing,
          trackingHistory := [], actualDelivery := none, internalNotes := none,
          cancellationReason := none, cancelledAt := none }
      let order1 := orderPreSave st.orders date order0
      let customer2 := customerPreSave
        { customer with
          totalOrders := customer.totalOrders + 1,
          totalSpent := customer.totalSpent + order1.pricing.total,
          lastOrderDate := some now }
      ({ customers := st.customers.map (fun c => if c.id == customer2.id then customer2 else c),
         products := products2,
         orders := st.orders ++ [order1] }, Except.ok order1)

/-- JavaScript `a || b` for an optional string: a missing value and the
empty string are falsy. -/
def jsOrStr (a : Option String) (b : String) : String :=
  match a with
  | none => b
  | some s => if s = "" then b else s

/-- The update-status route handler (PATCH of an order status): records the
previous status, overwrites `status`, stores internal notes when given,
appends a tracking-history entry when the status actually changed, stamps
`tracking.actualDelivery` when the new status is delivered, and saves the
order (running the pre-save hook). The handler never rejects a transition
based on the current status. -/
def updateOrderStatus (orders : List Order) (date : JsDate) (o : Order)
    (status : String) (notes : Option String) (location : Option String)
    (now : Nat) : Order :=
  let previousStatus := o.status
  let o1 := { o with status := status }
  let o2 :=
    match notes with
    | some n => if n = "" then o1 else { o1 with internalNotes := some n }
    | none => o1
  let o3 :=
    if status ≠ previousStatus then
      { o2 with trackingHistory :=
          o2.trackingHistory ++ [⟨status, jsOrStr location "", now, jsOrStr notes ""⟩] }
    else o2
  let o4 := if status = "delivered" then { o3 with actualDelivery := some now } else o3
  orderPreSave orders date o4

/-- Errors of the cancel-order route: the 400 response when the order is
already delivered or cancelled, and a thrown product-save validation
failure (caught as a 500). -/
inductive CancelErr where
  | cannotCancel
  | restoreSaveFailed
  deriving Repr, DecidableEq

/-- The inventory-restore loop of the cancel-order route: for every line
item whose product still exists and tracks inventory, adds the recorded
quantity back and saves the product. A save failure aborts the loop, with
the earlier restores persisted. -/
def restoreItems (store : List Product) (items : List OrderItem) :
    List Product × Bool :=
  match items with
  | [] => (store, true)
  | item :: rest =>
    match findById store item.product with
    | none => restoreItems store rest
    | some p =>
      if p.inventory.trackInventory then
        let updated := { p with
          inventory := { p.inventory with
            quantity := p.inventory.quantity + item.quantity } }
        match saveProduct store updated with
        | none => (store, false)
        | some store2 => restoreItems store2 rest
      else restoreItems store rest

/-- The cancel-order route handler: rejects when the status is delivered or
cancelled, otherwise restores tracked inventory, sets the status to
cancelled, records the reason and the cancellation timestamp, and saves the
order (running the pre-save hook). -/
def cancelOrder (products : List Product) (orders : List Order) (date : JsDate)
    (o : Order) (reason : String) (now : Nat) :
    List Product × Except CancelErr Order :=
  if o.status = "delivered" ∨ o.status = "cancelled" then
    (products, Except.error CancelErr.cannotCancel)
  else
    match restoreItems products o.items with
    | (products2, false) => (products2, Except.error CancelErr.restoreSaveFailed)
    | (products2, true) =>
      let o1 := { o with status := "cancelled",
                         cancellationReason := some reason,
                         cancelledAt := some now }
      (products2, Except.ok (orderPreSave orders date o1))

/-- An engine operation applied to a persisted order after its creation:
a status update or a cancellation. These are the writes the order lifecycle
manager performs on an existing order. -/
inductive EngineOp where
  | updateStatus (status : String) (notes : Option String)
      (location : Option String) (now : Nat)
  | cancel (reason : String) (now : Nat)

/-- Applies one engine operation to the product store and an order. A
rejected cancellation leaves the order as it was (it is not saved). -/
def applyEngineOp (orders : List Order) (date : JsDate)
    (products : List Product) (o : Order) (op : EngineOp) :
    List Product × Order :=
  match op with
  | EngineOp.updateStatus status notes location now =>
    (products, updateOrderStatus orders date o status notes location now)
  | EngineOp.cancel reason now =>
    match cancelOrder products orders date o reason now with
    | (ps, Except.ok o2) => (ps, o2)
    | (ps, Except.error _) => (ps, o)

/-- Applies a sequence of engine operations. -/
def runEngineOps (orders : List Order) (date : JsDate) :
    List Product × Order → List EngineOp → List Product × Order
  | po, [] => po
  | (ps, o), op :: rest =>
    runEngineOps orders date (applyEngineOp orders date ps o op) rest

/-- The `ones` word table of `numberToWords` (models/Invoice), indices
0 to 19. -/
def onesWord (n : Nat) : String :=
  match n with
  | 0 => ""
  | 1 => "One"
  | 2 => "Two"
  | 3 => "Three"
  | 4 => "Four"
  | 5 => "Five"
  | 6 => "Six"
  | 7 => "Seven"
  | 8 => "Eight"
  | 9 => "Nine"
  | 10 => "Ten"
  | 11 => "Eleven"
  | 12 => "Twelve"
  | 13 => "Thirteen"
  | 14 => "Fourteen"
  | 15 => "Fifteen"
  | 16 => "Sixteen"
  | 17 => "Seventeen"
  | 18 => "Eighteen"
  | 19 => "Nineteen"
  | _ => ""

/-- The `tens` word table of `numberToWords`, indices 0 to 9. -/
def tensWord (n : Nat) : String :=
  match n with
  | 2 => "Twenty"
  | 3 => "Thirty"
  | 4 => "Forty"
  | 5 => "Fifty"
  | 6 => "Sixty"
  | 7 => "Seventy"
  | 8 => "Eighty"
  | 9 => "Ninety"
  | _ => ""

/-- The recursive `numToWords` helper of models/Invoice: Indian grouping,
reducing by 100, 1000, 100000 (lakh) and 10000000 (crore) per tier. -/
def numToWords (num : Nat) : String :=
  if _h1 : num < 20 then onesWord num
  else if _h2 : num < 100 then
    tensWord (num / 10) ++ (if num % 10 ≠ 0 then " " ++ onesWord (num % 10) else "")
  else if _h3 : num < 1000 then
    onesWord (num / 100) ++ " Hundred"
      ++ (if num % 100 ≠ 0 then " " ++ numToWords (num % 100) else "")
  else if _h4 : num < 100000 then
    numToWords (num / 1000) ++ " Thousand"
      ++ (if num % 1000 ≠ 0 then " " ++ numToWords (num % 1000) else "")
  else if _h5 : num < 10000000 then
    numToWords (num / 100000) ++ " Lakh"
      ++ (if num % 100000 ≠ 0 then " " ++ numToWords (num % 100000) else "")
  else
    numToWords (num / 10000000) ++ " Crore"
      ++ (if num % 10000000 ≠ 0 then " " ++ numToWords (num % 10000000) else "")
termination_by num
decreasing_by
  all_goals omega

/-- `Math.floor` on the embedded numbers. -/
def mathFloor (x : ℚ) : Int := Int.floor x

/-- `Math.round` on the embedded numbers (round half up). -/
def mathRound (x : ℚ) : Int := Int.floor (x + 1 / 2)

/-- `numberToWords(amount)` of models/Invoice: splits the amount into
rupees and paise and renders both through `numToWords`. -/
def numberToWords (amount : ℚ) : String :=
  let rupees : Int := mathFloor amount
  let paise : Int := mathRound ((amount - (rupees : ℚ)) * 100)
  let words := numToWords rupees.toNat ++ " Rupees"
  if 0 < paise then words ++ " and " ++ numToWords paise.toNat ++ " Paise"
  else words

/-- One recorded payment of `invoice.paymentDetails.payments`. -/
structure InvoicePayment where
  method : String
  amount : ℚ
  reference : Option String
  date : Nat
  notes : Option String
  deriving Repr, DecidableEq

/-- The `paymentDetails` block of an invoice. -/
structure PaymentDetails where
  status : String
  paidAmount : ℚ
  paidDate : Option Nat
  dueDate : Nat
  payments : List InvoicePayment
  deriving Repr, DecidableEq

/-- The `pricing` block of an invoice: the fields the settlement engine
reads or writes. -/
structure InvoicePricing where
  subtotal : ℚ
  total : ℚ
  amountInWords : Option String
  deriving Repr, DecidableEq

/-- An invoice document: the fields the settlement engine reads or
writes. -/
structure Invoice where
  user : Nat
  customer : Nat
  invoiceNumber : Option String
  pricing : InvoicePricing
  paymentDetails : PaymentDetails
  datesPaidDate : Option Nat
  status : String
  deriving Repr, DecidableEq

/-- `Invoice.countDocuments({ user })`. -/
def countInvoicesOfUser (invoices : List Invoice) (userId : Nat) : Nat :=
  (invoices.filter (fun i => i.user == userId)).length

/-- The two invoice schema pre-save hooks: assign `invoiceNumber` when it
is not yet set, and recompute `pricing.amountInWords` whenever
`pricing.total` is truthy. -/
def invoicePreSave (invoices : List Invoice) (date : JsDate) (inv : Invoice) :
    Invoice :=
  let i1 :=
    match inv.invoiceNumber with
    | some _ => inv
    | none =>
      let n := genInvoiceNumber date (countInvoicesOfUser invoices inv.user)
      { inv with invoiceNumber := some n }
  if i1.pricing.total ≠ 0 then
    { i1 with pricing := { i1.pricing with amountInWords := some (numberToWords i1.pricing.total) } }
  else i1

/-- The record-payment route handler (routes/invoices): appends a payment
record, adds the amount to `paidAmount`, then sets the payment status to
paid (stamping both paid dates and the invoice-level status) when
`paidAmount` reaches `pricing.total`, and to partial otherwise; finally
saves the invoice (running the pre-save hooks). -/
def recordPayment (invoices : List Invoice) (date : JsDate) (inv : Invoice)
    (amount : ℚ) (method : String) (reference : Option String)
    (notes : Option String) (now : Nat) : Invoice :=
  let pd := inv.paymentDetails
  let pd1 := { pd with
    payments := pd.payments ++ [⟨method, amount, reference, now, notes⟩],
    paidAmount := pd.paidAmount + amount }
  let inv1 := { inv with paymentDetails := pd1 }
  let inv2 :=
    if inv1.paymentDetails.paidAmount ≥ inv1.pricing.total then
      { inv1 with
        paymentDetails := { inv1.paymentDetails with status := "paid", paidDate := some now },
        datesPaidDate := some now,
        status := "paid" }
    else
      { inv1 with paymentDetails := { inv1.paymentDetails with status := "partial" } }
  invoicePreSave invoices date inv2

/-- Progress of one in-flight order save through its pre-save hook: it has
not started, it has executed `countDocuments` (an awaited query), or it has
inserted its document with the number it computed. -/
inductive SavePhase where
  | notStarted
  | counted (c : Nat)
  | inserted (n : String)
  deriving Repr, DecidableEq

/-- Two concurrent order creations for the same owner, over the shared
collection: the persisted order numbers and each request's phase. -/
structure NumberingState where
  docs : List String
  t1 : SavePhase
  t2 : SavePhase
  deriving Repr, DecidableEq

/-- Interleaving semantics of the two concurrent saves: each request first
runs `countDocuments` and later inserts `ORD/YYMM/(count+1)`. The two
awaited steps of each request may interleave with the other request's in
any order, as the mongoose hook performs no locking or atomic increment. -/
inductive NumberingStep (date : JsDate) : NumberingState → NumberingState → Prop where
  | count1 (s : NumberingState) (h : s.t1 = SavePhase.notStarted) :
      NumberingStep date s { s with t1 := SavePhase.counted s.docs.length }
  | count2 (s : NumberingState) (h : s.t2 = SavePhase.notStarted) :
      NumberingStep date s { s with t2 := SavePhase.counted s.docs.length }
  | insert1 (s : NumberingState) (c : Nat) (h : s.t1 = SavePhase.counted c) :
      NumberingStep date s { s with docs := s.docs ++ [genOrderNumber date c],
                                    t1 := SavePhase.inserted (genOrderNumber date c) }
  | insert2 (s : NumberingState) (c : Nat) (h : s.t2 = SavePhase.counted c) :
      NumberingStep date s { s with docs := s.docs ++ [genOrderNumber date c],
                                    t2 := SavePhase.inserted (genOrderNumber date c) }

/-- Executions of the two concurrent saves. -/
def NumberingReaches (date : JsDate) : NumberingState → NumberingState → Prop :=
  Relation.ReflTransGen (NumberingStep date)

/-! Concrete scenario used by witnesses: the spec's worked example — one
customer, one tracked product priced 500 with 18 percent tax, an order of
two units with 50 shipping. -/

/-- Witness date: 2025-10-15 (monthIndex 9 is October). -/
def dW : JsDate := ⟨2025, 9, 15⟩

/-- Witness product: tracked, ten on hand. -/
def pW : Product := ⟨1, "Widget", "SKU1", 500, 18, ⟨10, true⟩⟩

/-- Witness customer of owner 7. -/
def cW : Customer := ⟨1, 7, 0, 0, 0, none⟩

/-- Witness stores before the order. -/
def stW : Stores := ⟨[cW], [pW], []⟩

/-- Witness create-order request: two units of product 1, 50 shipping. -/
def reqW : CreateOrderReq := ⟨1, [⟨1, 2, none, none, none⟩], some ⟨some 50, none, none⟩⟩

/-- The processed line item of the witness order: 1000 taxable, 180 tax. -/
def oiW : OrderItem := ⟨1, "Widget", "SKU1", 2, 500, 0, 18, 180, 1180⟩

/-- The persisted witness order: subtotal 1180, total 1230. -/
def oW : Order := ⟨7, 1, some "ORD/2510/0001", [oiW], "pending", ⟨1180, 0, 180, 50, 0, 1230, 0, 1230⟩, [], none, none, none, none⟩

/-- The stores after the witness order: inventory decremented to 8,
customer counters updated. -/
def stW2 : Stores := ⟨[⟨1, 7, 1, 1230, 1230, some 0⟩], [⟨1, "Widget", "SKU1", 500, 18, ⟨8, true⟩⟩], [oW]⟩

/-- The pricing invariant claimed for every persisted order:
total = subtotal + shipping + packaging and
amountDue = total - amountPaid. -/
def PricingInvariant (o : Order) : Prop :=
  o.pricing.total = o.pricing.subtotal + o.pricing.shipping + o.pricing.packaging ∧
  o.pricing.amountDue = o.pricing.total - o.pricing.amountPaid

/-- A fresh unsaved order of owner 7 (no order number yet). -/
def oN : Order := ⟨7, 1, none, [], "pending", ⟨0, 0, 0, 0, 0, 0, 0, 0⟩, [], none, none, none, none⟩

/-- A fresh unsaved invoice of owner 7 (no invoice number yet). -/
def invN : Invoice := ⟨7, 1, none, ⟨0, 0, none⟩, ⟨"pending", 0, none, 30, []⟩, none, "draft"⟩

/-- A tracked product with a single unit on hand. -/
def pLow : Product := ⟨3, "Scarce", "SKU3", 100, 0, ⟨1, true⟩⟩

/-- A create-order request whose second line item references product 2,
which does not exist in the store. -/
def reqBad : CreateOrderReq := ⟨1, [⟨1, 2, none, none, none⟩, ⟨2, 1, none, none, none⟩], none⟩

/-- A confirmed order of owner 7 over two units of product 1, used to
witness cancellation. -/
def oCancel : Order := ⟨7, 1, some "ORD/2510/0001", [oiW], "confirmed", ⟨1180, 0, 180, 50, 0, 1230, 0, 1230⟩, [], none, none, none, none⟩

/-- A delivered (terminal) order of owner 7. -/
def oDelivered : Order := ⟨7, 1, some "ORD/2510/0001", [], "delivered", ⟨0, 0, 0, 0, 0, 0, 0, 0⟩, [], none, none, none, none⟩

/-- A sent invoice of owner 7 over 100 rupees, nothing paid yet. -/
def invC : Invoice := ⟨7, 1, some "INV/251015/0001", ⟨100, 100, none⟩, ⟨"pending", 0, none, 30, []⟩, none, "sent"⟩

section Theorems

/-- Evaluation of the witness scenario: creating the order succeeds and
produces exactly the stores and order above. -/
lemma createOrder_scenario_eval : createOrder 7 dW 0 stW reqW = (stW2, Except.ok oW) := by
  norm_num [createOrder, processItems, findById, saveProduct, jsOr, orderPreSave,
    customerPreSave, genOrderNumber, countOrdersOfUser, padStart, sliceLastTwo,
    dW, pW, cW, stW, reqW, oiW, oW, stW2]
  decide

/-- On success, every processed line item satisfies the pricing equations,
and the returned subtotal is the sum of the line totals. -/
lemma processItems_ok_spec (items : List OrderItemIn) :
    ∀ (store store2 : List Product) (pis : List OrderItem) (sub : ℚ),
    processItems store items = (store2, Except.ok (pis, sub)) →
    (∀ it ∈ pis,
        it.taxAmount = (it.unitPrice * it.quantity - it.discount) * (it.taxRate / 100) ∧
        it.total = (it.unitPrice * it.quantity - it.discount) + it.taxAmount) ∧
    sub = (pis.map OrderItem.total).sum := by
  induction items with
  | nil =>
    intro store store2 pis sub h
    rw [processItems] at h
    simp only [Prod.mk.injEq, Except.ok.injEq] at h
    obtain ⟨-, h1, h2⟩ := h
    subst h1
    subst h2
    simp
  | cons item rest ih =>
    intro store store2 pis sub h
    rw [processItems] at h
    split at h
    · simp at h
    · dsimp only at h
      split at h
      · split at h
        · simp at h
        · split at h
          · simp at h
          · rename_i store3 pis0 sub0 heq
            simp only [Prod.mk.injEq, Except.ok.injEq] at h
            obtain ⟨h3, h4, h5⟩ := h
            subst h4
            subst h5
            obtain ⟨hall, hsum⟩ := ih _ _ _ _ heq
            refine ⟨?_, ?_⟩
            · intro it hit
              rcases List.mem_cons.mp hit with hhd | htl
              · subst hhd
                exact ⟨rfl, rfl⟩
              · exact hall it htl
            · simp [hsum]
      · split at h
        · simp at h
        · rename_i store3 pis0 sub0 heq
          simp only [Prod.mk.injEq, Except.ok.injEq] at h
          obtain ⟨h3, h4, h5⟩ := h
          subst h4
          subst h5
          obtain ⟨hall, hsum⟩ := ih _ _ _ _ heq
          refine ⟨?_, ?_⟩
          · intro it hit
            rcases List.mem_cons.mp hit with hhd | htl
            · subst hhd
              exact ⟨rfl, rfl⟩
            · exact hall it htl
          · simp [hsum]

lemma orderPreSave_items (os : List Order) (d : JsDate) (o : Order) :
    (orderPreSave os d o).items = o.items := by
  cases h : o.orderNumber <;> simp [orderPreSave, h]

lemma orderPreSave_status (os : List Order) (d : JsDate) (o : Order) :
    (orderPreSave os d o).status = o.status := by
  cases h : o.orderNumber <;> simp [orderPreSave, h]

lemma orderPreSave_pricing (os : List Order) (d : JsDate) (o : Order) :
    (orderPreSave os d o).pricing =
      { o.pricing with amountDue := o.pricing.total - o.pricing.amountPaid } := by
  cases h : o.orderNumber <;> simp [orderPreSave, h]

/-- C1: for every order accepted by createOrder, each stored line item
satisfies taxableAmount = unitPrice * quantity - discount,
tax.amount = taxableAmount * rate / 100 and total = taxableAmount + tax
amount, and the order subtotal is the sum of the line-item totals. -/
theorem order_items_pricing_equations
    (userId : Nat) (date : JsDate) (now : Nat) (st st2 : Stores)
    (req : CreateOrderReq) (o : Order)
    (h : createOrder userId date now st req = (st2, Except.ok o)) :
    (∀ it ∈ o.items,
        it.taxAmount = (it.unitPrice * it.quantity - it.discount) * (it.taxRate / 100) ∧
        it.total = (it.unitPrice * it.quantity - it.discount) + it.taxAmount) ∧
    o.pricing.subtotal = (o.items.map OrderItem.total).sum := by
  rw [createOrder] at h
  split at h
  · simp at h
  · dsimp only at h
    split at h
    · simp at h
    · rename_i products2 processedItems subtotal heq
      simp only [Prod.mk.injEq, Except.ok.injEq] at h
      obtain ⟨-, ho⟩ := h
      subst ho
      obtain ⟨hall, hsum⟩ := processItems_ok_spec _ _ _ _ _ heq
      rw [orderPreSave_items, orderPreSave_pricing]
      exact ⟨hall, hsum⟩

/-- Witness for C1: the worked scenario instantiates the theorem — two
units at 500 with 18 percent tax give a 1180 line total and subtotal. -/
theorem order_items_pricing_equations_witness :
    createOrder 7 dW 0 stW reqW = (stW2, Except.ok oW) ∧
    ((∀ it ∈ oW.items,
        it.taxAmount = (it.unitPrice * it.quantity - it.discount) * (it.taxRate / 100) ∧
        it.total = (it.unitPrice * it.quantity - it.discount) + it.taxAmount) ∧
      oW.pricing.subtotal = (oW.items.map OrderItem.total).sum) :=
  ⟨createOrder_scenario_eval,
    order_items_pricing_equations 7 dW 0 stW stW2 reqW oW createOrder_scenario_eval⟩

/-- C4: with N-1 documents of the owner already stored, the pre-save hooks
assign the Nth order the number ORD/YYMM/NNNN and the Nth invoice the
number INV/YYMMDD/NNNN, NNNN being the cumulative per-owner count plus one
zero-padded to four digits — for every date, so the sequence never resets
at month or year boundaries. -/
theorem document_numbering_format
    (orders : List Order) (invoices : List Invoice) (date : JsDate)
    (o : Order) (inv : Invoice) (N : Nat) (hN : 1 ≤ N)
    (ho : o.orderNumber = none) (hco : countOrdersOfUser orders o.user = N - 1)
    (hi : inv.invoiceNumber = none)
    (hci : countInvoicesOfUser invoices inv.user = N - 1) :
    (orderPreSave orders date o).orderNumber =
      some ("ORD/" ++ sliceLastTwo (toString date.fullYear)
        ++ padStart 2 (toString (date.monthIndex + 1))
        ++ "/" ++ padStart 4 (toString N)) ∧
    (invoicePreSave invoices date inv).invoiceNumber =
      some ("INV/" ++ sliceLastTwo (toString date.fullYear)
        ++ padStart 2 (toString (date.monthIndex + 1))
        ++ padStart 2 (toString date.day)
        ++ "/" ++ padStart 4 (toString N)) := by
  have hN1 : N - 1 + 1 = N := by omega
  constructor
  · rw [orderPreSave]
    simp only [ho, hco, genOrderNumber, hN1]
  · rw [invoicePreSave]
    simp only [hi, hci, genInvoiceNumber, hN1]
    split
    · simp
    · simp

/-- Witness for C4: first order and first invoice of owner 7 on
2025-10-15. -/
theorem document_numbering_format_witness :
    (orderPreSave [] dW oN).orderNumber = some "ORD/2510/0001" ∧
    (invoicePreSave [] dW invN).invoiceNumber = some "INV/251015/0001" := by
  have h := document_numbering_format [] [] dW oN invN 1 (by decide) (by decide)
    (by decide) (by decide) (by decide)
  refine ⟨h.1.trans ?_, h.2.trans ?_⟩
  · decide
  · decide

/-- C10: the amount-in-words conversion uses Indian grouping — in
particular 150075.50 rupees render as One Lakh Fifty Thousand Seventy Five
Rupees and Fifty Paise, and the lakh and crore tiers sit at 100000 and
10000000. -/
theorem amountInWords_indian_grouping :
    numberToWords (300151 / 2 : ℚ) =
      "One Lakh Fifty Thousand Seventy Five Rupees and Fifty Paise" ∧
    numToWords 100000 = "One Lakh" ∧
    numToWords 10000000 = "One Crore" ∧
    numToWords 150075 = "One Lakh Fifty Thousand Seventy Five" := by
  have h1 : numToWords 150075 = "One Lakh Fifty Thousand Seventy Five" := by
    simp [numToWords]
    rfl
  have h2 : numToWords 50 = "Fifty" := by
    simp [numToWords]
    rfl
  refine ⟨?_, ?_, ?_, h1⟩
  · have hf : mathFloor (300151 / 2 : ℚ) = 150075 := by norm_num [mathFloor]
    have hr : mathRound (((300151 / 2 : ℚ) - ((150075 : Int) : ℚ)) * 100) = 50 := by
      norm_num [mathRound]
    rw [numberToWords]
    rw [hf]
    rw [hr]
    rw [if_pos (by norm_num : (0 : Int) < 50)]
    rw [show Int.toNat 150075 = 150075 from rfl, show Int.toNat 50 = 50 from rfl]
    rw [h1, h2]
    rfl
  · simp [numToWords]
    rfl
  · simp [numToWords]
    rfl

lemma updateOrderStatus_pricing (orders : List Order) (d : JsDate) (o : Order)
    (status : String) (notes : Option String) (location : Option String)
    (now : Nat) :
    (updateOrderStatus orders d o status notes location now).pricing =
      { o.pricing with amountDue := o.pricing.total - o.pricing.amountPaid } := by
  unfold updateOrderStatus
  cases notes <;> dsimp only <;> split_ifs <;> rw [orderPreSave_pricing]

lemma cancelOrder_ok_pricing (products : List Product) (orders : List Order)
    (d : JsDate) (o : Order) (reason : String) (now : Nat)
    (ps : List Product) (o2 : Order)
    (h : cancelOrder products orders d o reason now = (ps, Except.ok o2)) :
    o2.pricing = { o.pricing with amountDue := o.pricing.total - o.pricing.amountPaid } := by
  rw [cancelOrder] at h
  split at h
  · simp at h
  · split at h
    · simp at h
    · simp only [Prod.mk.injEq, Except.ok.injEq] at h
      obtain ⟨-, h2⟩ := h
      subst h2
      rw [orderPreSave_pricing]

lemma createOrder_ok_pricingInvariant
    (userId : Nat) (date : JsDate) (now : Nat) (st st2 : Stores)
    (req : CreateOrderReq) (o : Order)
    (h : createOrder userId date now st req = (st2, Except.ok o)) :
    PricingInvariant o := by
  rw [createOrder] at h
  split at h
  · simp at h
  · dsimp only at h
    split at h
    · simp at h
    · simp only [Prod.mk.injEq, Except.ok.injEq] at h
      obtain ⟨-, ho⟩ := h
      subst ho
      constructor
      · rw [orderPreSave_pricing]
      · rw [orderPreSave_pricing]

lemma pricingInvariant_applyEngineOp (ordersX : List Order) (dX : JsDate)
    (ps : List Product) (o : Order) (op : EngineOp) (h : PricingInvariant o) :
    PricingInvariant (applyEngineOp ordersX dX ps o op).2 := by
  cases op with
  | updateStatus status notes location now =>
    refine ⟨?_, ?_⟩ <;>
      simp only [applyEngineOp, updateOrderStatus_pricing] <;>
      exact h.1
  | cancel reason now =>
    simp only [applyEngineOp]
    cases hc : cancelOrder ps ordersX dX o reason now with
    | mk ps2 r =>
      cases r with
      | ok o2 =>
        have hp := cancelOrder_ok_pricing ps ordersX dX o reason now ps2 o2 hc
        refine ⟨?_, ?_⟩ <;> simp only [hp] <;> exact h.1
      | error e => exact h

/-- C2: every order persisted by createOrder satisfies
total = subtotal + shipping + packaging and amountDue = total - amountPaid,
and both equalities still hold after every subsequent save performed by the
order lifecycle manager (status updates and cancellations, whose saves run
the pre-save hook). -/
theorem order_pricing_invariant
    (userId : Nat) (date : JsDate) (now : Nat) (st st2 : Stores)
    (req : CreateOrderReq) (o : Order)
    (h : createOrder userId date now st req = (st2, Except.ok o)) :
    PricingInvariant o ∧
    ∀ (ordersX : List Order) (dateX : JsDate) (ops : List EngineOp),
      PricingInvariant (runEngineOps ordersX dateX (st2.products, o) ops).2 := by
  have h0 := createOrder_ok_pricingInvariant userId date now st st2 req o h
  refine ⟨h0, ?_⟩
  intro ordersX dateX ops
  have main : ∀ (ops2 : List EngineOp) (ps : List Product) (o1 : Order),
      PricingInvariant o1 →
      PricingInvariant (runEngineOps ordersX dateX (ps, o1) ops2).2 := by
    intro ops2
    induction ops2 with
    | nil =>
      intro ps o1 ho
      simpa [runEngineOps] using ho
    | cons op rest ih =>
      intro ps o1 ho
      rw [runEngineOps]
      have h2 := pricingInvariant_applyEngineOp ordersX dateX ps o1 op ho
      cases hap : applyEngineOp ordersX dateX ps o1 op with
      | mk ps2 o2 =>
        rw [hap] at h2
        exact ih ps2 o2 h2
  exact main ops st2.products o h0

/-- Witness for C2: the worked scenario keeps the invariant through a
confirm-status save. -/
theorem order_pricing_invariant_witness :
    createOrder 7 dW 0 stW reqW = (stW2, Except.ok oW) ∧
    PricingInvariant oW ∧
    PricingInvariant (runEngineOps [] dW (stW2.products, oW)
      [EngineOp.updateStatus "confirmed" none none 1]).2 :=
  ⟨createOrder_scenario_eval,
    (order_pricing_invariant 7 dW 0 stW stW2 reqW oW createOrder_scenario_eval).1,
    (order_pricing_invariant 7 dW 0 stW stW2 reqW oW createOrder_scenario_eval).2
      [] dW [EngineOp.updateStatus "confirmed" none none 1]⟩

lemma invoicePreSave_paymentDetails (is : List Invoice) (d : JsDate) (i : Invoice) :
    (invoicePreSave is d i).paymentDetails = i.paymentDetails := by
  cases h : i.invoiceNumber <;> simp [invoicePreSave, h] <;> split_ifs <;> rfl

lemma invoicePreSave_invoiceStatus (is : List Invoice) (d : JsDate) (i : Invoice) :
    (invoicePreSave is d i).status = i.status := by
  cases h : i.invoiceNumber <;> simp [invoicePreSave, h] <;> split_ifs <;> rfl

/-- Counterexample for C3: recording a payment of amount 0 on a pending
invoice leaves paidAmount at 0 yet sets paymentDetails.status to partial,
so the claimed equivalence between the partial status and
0 < paidAmount < total fails at this input. -/
theorem recordPayment_zero_amount_partial :
    (recordPayment [] dW invC 0 "cash" none none 5).paymentDetails.status = "partial" ∧
    (recordPayment [] dW invC 0 "cash" none none 5).paymentDetails.paidAmount = 0 ∧
    ¬(0 < (recordPayment [] dW invC 0 "cash" none none 5).paymentDetails.paidAmount) := by
  have h : (recordPayment [] dW invC 0 "cash" none none 5).paymentDetails =
      { status := "partial", paidAmount := 0, paidDate := none, dueDate := 30,
        payments := [⟨"cash", 0, none, 5, none⟩] } := by
    rw [recordPayment, invoicePreSave_paymentDetails]
    norm_num [invC]
  rw [h]
  norm_num

/-- C3 (amended): for a positive payment amount on an invoice whose paid
amount is not negative, recordPayment appends the payment record, adds the
amount to paidAmount, and afterwards the payment status is paid exactly
when paidAmount reached pricing.total (stamping paidDate and the
invoice-level status) and partial exactly when 0 < paidAmount < total. -/
theorem recordPayment_status_spec
    (invoices : List Invoice) (d : JsDate) (inv : Invoice) (amount : ℚ)
    (method : String) (reference : Option String) (notes : Option String)
    (now : Nat) (hpos : 0 < amount)
    (hprev : 0 ≤ inv.paymentDetails.paidAmount) :
    (recordPayment invoices d inv amount method reference notes now).paymentDetails.payments =
      inv.paymentDetails.payments ++ [⟨method, amount, reference, now, notes⟩] ∧
    (recordPayment invoices d inv amount method reference notes now).paymentDetails.paidAmount =
      inv.paymentDetails.paidAmount + amount ∧
    ((recordPayment invoices d inv amount method reference notes now).paymentDetails.status = "paid" ↔
      inv.paymentDetails.paidAmount + amount ≥ inv.pricing.total) ∧
    ((recordPayment invoices d inv amount method reference notes now).paymentDetails.status = "paid" →
      (recordPayment invoices d inv amount method reference notes now).paymentDetails.paidDate = some now ∧
      (recordPayment invoices d inv amount method reference notes now).status = "paid") ∧
    ((recordPayment invoices d inv amount method reference notes now).paymentDetails.status = "partial" ↔
      0 < (recordPayment invoices d inv amount method reference notes now).paymentDetails.paidAmount ∧
      (recordPayment invoices d inv amount method reference notes now).paymentDetails.paidAmount <
        inv.pricing.total) := by
  rw [recordPayment]
  by_cases hge : inv.paymentDetails.paidAmount + amount ≥ inv.pricing.total
  · rw [if_pos (by exact hge)]
    rw [invoicePreSave_paymentDetails, invoicePreSave_invoiceStatus]
    refine ⟨rfl, rfl, ?_, ?_, ?_⟩
    · simp [hge]
    · intro
      exact ⟨rfl, rfl⟩
    · constructor
      · intro hcontra
        simp at hcontra
      · intro hc
        exact absurd hc.2 (not_lt.mpr hge)
  · rw [if_neg (by exact hge)]
    rw [invoicePreSave_paymentDetails, invoicePreSave_invoiceStatus]
    dsimp only
    refine ⟨rfl, rfl, ?_, ?_, ?_⟩
    · constructor
      · intro hcontra
        simp at hcontra
      · intro hc
        exact absurd hc hge
    · intro hcontra
      simp at hcontra
    · constructor
      · intro hst
        refine ⟨?_, lt_of_not_ge hge⟩
        linarith
      · intro hc
        rfl

/-- Witness for C3: paying exactly the 100 due on the witness invoice
yields status paid with paidDate stamped and the invoice-level status
paid. -/
theorem recordPayment_status_spec_witness :
    (0 : ℚ) < 100 ∧
    (recordPayment [] dW invC 100 "cash" none none 5).paymentDetails.status = "paid" ∧
    (recordPayment [] dW invC 100 "cash" none none 5).paymentDetails.paidDate = some 5 ∧
    (recordPayment [] dW invC 100 "cash" none none 5).status = "paid" := by
  have h := recordPayment_status_spec [] dW invC 100 "cash" none none 5
    (by norm_num) (by norm_num [invC])
  have hpaid : (recordPayment [] dW invC 100 "cash" none none 5).paymentDetails.status = "paid" :=
    h.2.2.1.mpr (by norm_num [invC])
  have hdates := h.2.2.2.1 hpaid
  exact ⟨by norm_num, hpaid, hdates.1, hdates.2⟩

lemma orderPreSave_trackingHistory (os : List Order) (d : JsDate) (o : Order) :
    (orderPreSave os d o).trackingHistory = o.trackingHistory := by
  cases h : o.orderNumber <;> simp [orderPreSave, h]

lemma orderPreSave_actualDelivery (os : List Order) (d : JsDate) (o : Order) :
    (orderPreSave os d o).actualDelivery = o.actualDelivery := by
  cases h : o.orderNumber <;> simp [orderPreSave, h]

/-- Counterexample for C9: applied to a delivered order, the status-update
handler does not reject — it overwrites the status with pending and appends
a tracking-history entry, mutating the order. -/
theorem updateStatus_terminal_not_rejected :
    (updateOrderStatus [] dW oDelivered "pending" none none 3).status = "pending" ∧
    (updateOrderStatus [] dW oDelivered "pending" none none 3).trackingHistory =
      [⟨"pending", "", 3, ""⟩] := by
  decide

/-- C9 (amended): the status-update handler never rejects based on the
current status, terminal states included: it always applies the requested
status, appends a tracking-history entry exactly when the status actually
changes, and stamps actualDelivery when the new status is delivered. -/
theorem updateStatus_behavior (orders : List Order) (d : JsDate) (o : Order)
    (status : String) (notes : Option String) (location : Option String)
    (now : Nat) :
    (updateOrderStatus orders d o status notes location now).status = status ∧
    (status ≠ o.status →
      (updateOrderStatus orders d o status notes location now).trackingHistory =
        o.trackingHistory ++ [⟨status, jsOrStr location "", now, jsOrStr notes ""⟩]) ∧
    (status = o.status →
      (updateOrderStatus orders d o status notes location now).trackingHistory =
        o.trackingHistory) ∧
    (status = "delivered" →
      (updateOrderStatus orders d o status notes location now).actualDelivery =
        some now) := by
  refine ⟨?_, ?_, ?_, ?_⟩
  · unfold updateOrderStatus
    cases notes <;> dsimp only <;> split_ifs <;> simp [orderPreSave_status]
  · intro hne
    unfold updateOrderStatus
    cases notes <;> dsimp only <;> split_ifs <;>
      simp_all [orderPreSave_trackingHistory]
  · intro heq
    unfold updateOrderStatus
    cases notes <;> dsimp only <;> split_ifs <;>
      simp_all [orderPreSave_trackingHistory]
  · intro hst
    unfold updateOrderStatus
    cases notes <;> dsimp only <;> split_ifs <;>
      simp_all [orderPreSave_actualDelivery]

/-- Witness for C9: updating the delivered witness order to pending is a
genuine status change, so the handler rewrites the status and appends the
history entry. -/
theorem updateStatus_behavior_witness :
    ("pending" : String) ≠ oDelivered.status ∧
    (updateOrderStatus [] dW oDelivered "pending" none none 3).trackingHistory =
      oDelivered.trackingHistory ++ [⟨"pending", jsOrStr none "", 3, jsOrStr none ""⟩] :=
  ⟨by decide,
    (updateStatus_behavior [] dW oDelivered "pending" none none 3).2.1 (by decide)⟩

/-- C6 is a code bug: when the second line item's product lookup fails, the
create-order handler returns the 400 error without rolling back — no order
is stored and the customer is untouched, but the first item's inventory
decrement (10 down to 8) stays persisted, contradicting the claimed
atomicity. -/
theorem createOrder_partial_decrement_survives :
    createOrder 7 dW 0 stW reqBad =
      (⟨[cW], [⟨1, "Widget", "SKU1", 500, 18, ⟨8, true⟩⟩], []⟩,
        Except.error (CreateErr.productNotFound 2)) ∧
    stW.products = [⟨1, "Widget", "SKU1", 500, 18, ⟨10, true⟩⟩] := by
  constructor
  · norm_num [createOrder, processItems, findById, saveProduct, jsOr,
      stW, cW, pW, reqBad]
  · norm_num [stW, pW]

/-- C5 is a code bug: the pre-save hook allocates numbers with a
countDocuments query followed by an insert, with no atomic increment, so
the interleaving in which both concurrent requests count before either
inserts is a legal execution and both orders get ORD/2510/0001 — the
persisted numbers are not distinct. -/
theorem order_numbering_race_duplicate :
    NumberingReaches dW ⟨[], SavePhase.notStarted, SavePhase.notStarted⟩
      ⟨[genOrderNumber dW 0, genOrderNumber dW 0],
        SavePhase.inserted (genOrderNumber dW 0),
        SavePhase.inserted (genOrderNumber dW 0)⟩ ∧
    genOrderNumber dW 0 = "ORD/2510/0001" ∧
    ¬ ([genOrderNumber dW 0, genOrderNumber dW 0] : List String).Nodup := by
  refine ⟨?_, by decide, by simp⟩
  exact Relation.ReflTransGen.tail
    (Relation.ReflTransGen.tail
      (Relation.ReflTransGen.tail
        (Relation.ReflTransGen.single
          (NumberingStep.count1 ⟨[], SavePhase.notStarted, SavePhase.notStarted⟩ rfl))
        (NumberingStep.count2 _ rfl))
      (NumberingStep.insert1 _ 0 rfl))
    (NumberingStep.insert2 _ 0 rfl)

lemma findById_id (store : List Product) (pid : Nat) (p : Product)
    (h : findById store pid = some p) : p.id = pid := by
  have := List.find?_some h
  simpa using this

lemma findById_mem (store : List Product) (pid : Nat) (p : Product)
    (h : findById store pid = some p) : p ∈ store :=
  List.mem_of_find?_eq_some h

lemma saveProduct_some (store : List Product) (p : Product)
    (h : 0 ≤ p.inventory.quantity) :
    saveProduct store p = some (store.map (fun q => if q.id == p.id then p else q)) := by
  rw [saveProduct, if_neg (not_lt.mpr h)]

lemma saveProduct_nonneg (store : List Product) (p : Product)
    (store2 : List Product) (h : saveProduct store p = some store2)
    (hs : ∀ q ∈ store, 0 ≤ q.inventory.quantity) :
    ∀ q ∈ store2, 0 ≤ q.inventory.quantity := by
  rw [saveProduct] at h
  split at h
  · simp at h
  · rename_i hp
    simp only [Option.some.injEq] at h
    subst h
    intro q hqmem
    obtain ⟨a, hamem, haq⟩ := List.mem_map.mp hqmem
    by_cases hid : (a.id == p.id) = true
    · rw [if_pos hid] at haq
      subst haq
      exact not_lt.mp hp
    · rw [if_neg hid] at haq
      subst haq
      exact hs a hamem

lemma find?_map_of_id_eq (f : Product → Product) (hf : ∀ q, (f q).id = q.id)
    (l : List Product) (pid : Nat) :
    (l.map f).find? (fun q => q.id == pid) =
      (l.find? (fun q => q.id == pid)).map f := by
  induction l with
  | nil => rfl
  | cons a l ih =>
    cases hc : (a.id == pid) with
    | true => simp [List.find?_cons, hf, hc]
    | false => simp [List.find?_cons, hf, hc, ih]

lemma findById_saveProduct (store : List Product) (p : Product)
    (store2 : List Product) (h : saveProduct store p = some store2) (pid : Nat) :
    findById store2 pid =
      (findById store pid).map (fun q => if q.id == p.id then p else q) := by
  rw [saveProduct] at h
  split at h
  · simp at h
  · simp only [Option.some.injEq] at h
    subst h
    apply find?_map_of_id_eq
    intro q
    dsimp only
    split
    · rename_i hq
      have hq2 : q.id = p.id := by simpa using hq
      exact hq2.symm
    · rfl

lemma processItems_nonneg (items : List OrderItemIn) :
    ∀ (store : List Product), (∀ q ∈ store, 0 ≤ q.inventory.quantity) →
    ∀ q ∈ (processItems store items).1, 0 ≤ q.inventory.quantity := by
  induction items with
  | nil =>
    intro store hs
    simpa [processItems] using hs
  | cons item rest ih =>
    intro store hs
    rw [processItems]
    split
    · simpa using hs
    · dsimp only
      split
      · split
        · simpa using hs
        · rename_i store2 hsave
          have hs2 := saveProduct_nonneg store _ store2 hsave hs
          have := ih store2 hs2
          split
          · rename_i store3 e heq
            rw [heq] at this
            simpa using this
          · rename_i store3 pis sub heq
            rw [heq] at this
            simpa using this
      · have := ih store hs
        split
        · rename_i store3 e heq
          rw [heq] at this
          simpa using this
        · rename_i store3 pis sub heq
          rw [heq] at this
          simpa using this

lemma processItems_insufficient_head (store : List Product) (item : OrderItemIn)
    (rest : List OrderItemIn) (p : Product)
    (hf : findById store item.product = some p)
    (ht : p.inventory.trackInventory = true)
    (hq : p.inventory.quantity < item.quantity) :
    processItems store (item :: rest) =
      (store, Except.error (CreateErr.productSaveFailed item.product)) := by
  rw [processItems, hf]
  dsimp only
  rw [if_pos ht]
  rw [saveProduct, if_pos (by dsimp only; linarith)]

/-- C7: a line item that asks for more than a tracked product's on-hand
quantity makes the reservation save fail (the schema validator rejecting a
negative quantity is how InsufficientStock surfaces), leaving the store
untouched; and no execution of createOrder ever drives a persisted product
quantity below zero. -/
theorem insufficient_stock_rejected (store : List Product) (item : OrderItemIn)
    (rest : List OrderItemIn) (p : Product)
    (hf : findById store item.product = some p)
    (ht : p.inventory.trackInventory = true)
    (hq : p.inventory.quantity < item.quantity) :
    processItems store (item :: rest) =
      (store, Except.error (CreateErr.productSaveFailed item.product)) ∧
    ∀ (userId : Nat) (d : JsDate) (now : Nat) (st : Stores) (req : CreateOrderReq),
      (∀ q ∈ st.products, 0 ≤ q.inventory.quantity) →
      ∀ q ∈ (createOrder userId d now st req).1.products,
        0 ≤ q.inventory.quantity := by
  constructor
  · exact processItems_insufficient_head store item rest p hf ht hq
  · intro userId d now st req hs
    rw [createOrder]
    split
    · simpa using hs
    · dsimp only
      have := processItems_nonneg req.items st.products hs
      split
      · rename_i products2 e heq
        rw [heq] at this
        simpa using this
      · rename_i products2 processedItems subtotal heq
        rw [heq] at this
        simpa using this

/-- Witness for C7: asking for five units of the one-unit product makes the
reservation fail and leaves the store as it was. -/
theorem insufficient_stock_rejected_witness :
    pLow.inventory.trackInventory = true ∧
    pLow.inventory.quantity < 5 ∧
    processItems [pLow] [⟨3, 5, none, none, none⟩] =
      ([pLow], Except.error (CreateErr.productSaveFailed 3)) := by
  have h := insufficient_stock_rejected [pLow] ⟨3, 5, none, none, none⟩ [] pLow
    (by decide) (by decide) (by norm_num [pLow])
  exact ⟨by decide, by norm_num [pLow], h.1⟩

lemma restoreItems_other (items : List OrderItem) :
    ∀ (store : List Product) (pid : Nat),
    pid ∉ items.map (fun it => it.product) →
    findById (restoreItems store items).1 pid = findById store pid := by
  induction items with
  | nil =>
    intro store pid h
    rfl
  | cons it rest ih =>
    intro store pid h
    simp only [List.map_cons, List.mem_cons, not_or] at h
    obtain ⟨hne, hrest⟩ := h
    rw [restoreItems]
    cases hf : findById store it.product with
    | none => exact ih store pid hrest
    | some p =>
      dsimp only
      by_cases ht : p.inventory.trackInventory = true
      · rw [if_pos ht]
        have hpmem := findById_mem store it.product p hf
        cases hsv : saveProduct store { p with inventory := { p.inventory with
            quantity := p.inventory.quantity + it.quantity } } with
        | none => rfl
        | some store2 =>
          dsimp only
          rw [ih store2 pid hrest, findById_saveProduct store _ store2 hsv pid]
          cases hq : findById store pid with
          | none => rfl
          | some q =>
            have hqid : q.id = pid := findById_id store pid q hq
            have hpid : p.id = it.product := findById_id store it.product p hf
            dsimp only [Option.map]
            rw [if_neg]
            simp only [hqid]
            simp only [beq_iff_eq]
            intro hcontra
            exact hne (hcontra.trans hpid)
      · rw [if_neg ht]
        exact ih store pid hrest

lemma restoreItems_effect (items : List OrderItem) :
    ∀ (store : List Product),
    (∀ q ∈ store, 0 ≤ q.inventory.quantity) →
    (∀ it ∈ items, 0 ≤ it.quantity) →
    (items.map (fun it => it.product)).Nodup →
    (restoreItems store items).2 = true ∧
    ∀ it ∈ items, ∀ p, findById store it.product = some p →
      p.inventory.trackInventory = true →
      findById (restoreItems store items).1 it.product =
        some { p with inventory := { p.inventory with
          quantity := p.inventory.quantity + it.quantity } } := by
  induction items with
  | nil =>
    intro store hs hq hn
    exact ⟨rfl, by simp⟩
  | cons it rest ih =>
    intro store hs hq hn
    simp only [List.map_cons, List.nodup_cons] at hn
    obtain ⟨hnotin, hnrest⟩ := hn
    have hqrest : ∀ it2 ∈ rest, 0 ≤ it2.quantity :=
      fun it2 h2 => hq it2 (List.mem_cons_of_mem it h2)
    rw [restoreItems]
    cases hf : findById store it.product with
    | none =>
      have hrec := ih store hs hqrest hnrest
      refine ⟨hrec.1, ?_⟩
      intro it2 hit2 p2 hp2 ht2
      rcases List.mem_cons.mp hit2 with h | h
      · subst h
        rw [hf] at hp2
        exact absurd hp2 (by simp)
      · exact hrec.2 it2 h p2 hp2 ht2
    | some p =>
      dsimp only
      by_cases ht : p.inventory.trackInventory = true
      · rw [if_pos ht]
        have hpmem := findById_mem store it.product p hf
        have hpid : p.id = it.product := findById_id store it.product p hf
        have hnn : (0 : ℚ) ≤ p.inventory.quantity + it.quantity := by
          have h1 := hs p hpmem
          have h2 := hq it (List.mem_cons_self it rest)
          linarith
        rw [saveProduct_some store _ hnn]
        dsimp only
        have hsv : saveProduct store { p with inventory := { p.inventory with
            quantity := p.inventory.quantity + it.quantity } } =
            some (store.map (fun q => if q.id == ({ p with inventory := { p.inventory with
              quantity := p.inventory.quantity + it.quantity } } : Product).id
              then { p with inventory := { p.inventory with
                quantity := p.inventory.quantity + it.quantity } } else q)) :=
          saveProduct_some store _ hnn
        have hs2 := saveProduct_nonneg store _ _ hsv hs
        have hrec := ih _ hs2 hqrest hnrest
        refine ⟨hrec.1, ?_⟩
        intro it2 hit2 p2 hp2 ht2
        rcases List.mem_cons.mp hit2 with h | h
        · subst h
          rw [hf] at hp2
          simp only [Option.some.injEq] at hp2
          subst hp2
          rw [restoreItems_other rest _ it2.product hnotin]
          rw [findById_saveProduct store _ _ hsv it2.product, hf]
          dsimp only [Option.map]
          rw [if_pos]
          simp [hpid]
        · have hne2 : it2.product ≠ it.product := by
            intro hcontra
            exact hnotin (hcontra ▸ List.mem_map_of_mem (fun x => x.product) h)
          have hkeep : findById (store.map (fun q => if q.id == ({ p with
              inventory := { p.inventory with
                quantity := p.inventory.quantity + it.quantity } } : Product).id
              then { p with inventory := { p.inventory with
                quantity := p.inventory.quantity + it.quantity } } else q))
              it2.product = some p2 := by
            rw [findById_saveProduct store _ _ hsv it2.product, hp2]
            have hp2id : p2.id = it2.product := findById_id store it2.product p2 hp2
            dsimp only [Option.map]
            rw [if_neg]
            simp only [hp2id]
            simp only [beq_iff_eq]
            intro hcontra
            exact hne2 (hcontra.trans hpid)
          exact hrec.2 it2 h p2 hkeep ht2
      · rw [if_neg ht]
        have hrec := ih store hs hqrest hnrest
        refine ⟨hrec.1, ?_⟩
        intro it2 hit2 p2 hp2 ht2
        rcases List.mem_cons.mp hit2 with h | h
        · subst h
          rw [hf] at hp2
          simp only [Option.some.injEq] at hp2
          subst hp2
          exact absurd ht2 ht
        · exact hrec.2 it2 h p2 hp2 ht2

lemma orderPreSave_cancellationReason (os : List Order) (d : JsDate) (o : Order) :
    (orderPreSave os d o).cancellationReason = o.cancellationReason := by
  cases h : o.orderNumber <;> simp [orderPreSave, h]

lemma orderPreSave_cancelledAt (os : List Order) (d : JsDate) (o : Order) :
    (orderPreSave os d o).cancelledAt = o.cancelledAt := by
  cases h : o.orderNumber <;> simp [orderPreSave, h]

/-- C8: over stores with nonnegative quantities, orders with nonnegative
item quantities and pairwise-distinct item products, cancelOrder succeeds
exactly when the status is neither delivered nor cancelled; on success it
adds each tracked line item's recorded quantity back to its product, sets
the status to cancelled, records the reason and the timestamp, and a
second cancel of the resulting order fails with the store unchanged. -/
theorem cancelOrder_spec (products : List Product) (orders : List Order)
    (d : JsDate) (o : Order) (reason : String) (now : Nat)
    (hstore : ∀ q ∈ products, 0 ≤ q.inventory.quantity)
    (hq : ∀ it ∈ o.items, 0 ≤ it.quantity)
    (hnodup : (o.items.map (fun it => it.product)).Nodup) :
    (¬(o.status = "delivered" ∨ o.status = "cancelled") ↔
      ∃ ps2 o2, cancelOrder products orders d o reason now =
        (ps2, Except.ok o2)) ∧
    ((o.status = "delivered" ∨ o.status = "cancelled") →
      cancelOrder products orders d o reason now =
        (products, Except.error CancelErr.cannotCancel)) ∧
    (∀ ps2 o2, cancelOrder products orders d o reason now =
        (ps2, Except.ok o2) →
      o2.status = "cancelled" ∧
      o2.cancellationReason = some reason ∧
      o2.cancelledAt = some now ∧
      (∀ it ∈ o.items, ∀ p, findById products it.product = some p →
        p.inventory.trackInventory = true →
        findById ps2 it.product =
          some { p with inventory := { p.inventory with
            quantity := p.inventory.quantity + it.quantity } }) ∧
      ∀ reason2 now2, cancelOrder ps2 orders d o2 reason2 now2 =
        (ps2, Except.error CancelErr.cannotCancel)) := by
  have heff := restoreItems_effect o.items products hstore hq hnodup
  by_cases hterm : o.status = "delivered" ∨ o.status = "cancelled"
  · refine ⟨?_, ?_, ?_⟩
    · constructor
      · intro hcontra
        exact absurd hterm hcontra
      · intro ⟨ps2, o2, hps⟩
        rw [cancelOrder, if_pos hterm] at hps
        simp at hps
    · intro
      rw [cancelOrder, if_pos hterm]
    · intro ps2 o2 hps
      rw [cancelOrder, if_pos hterm] at hps
      simp at hps
  · have hrun : cancelOrder products orders d o reason now =
        ((restoreItems products o.items).1,
          Except.ok (orderPreSave orders d
            { o with status := "cancelled",
                     cancellationReason := some reason,
                     cancelledAt := some now })) := by
      rw [cancelOrder, if_neg hterm]
      cases hr : restoreItems products o.items with
      | mk ps2 flag =>
        have hflag : flag = true := by
          have := heff.1
          rw [hr] at this
          exact this
        subst hflag
        rfl
    refine ⟨?_, ?_, ?_⟩
    · constructor
      · intro
        exact ⟨_, _, hrun⟩
      · intro
        exact hterm
    · intro hcontra
      exact absurd hcontra hterm
    · intro ps2 o2 hps
      rw [hrun] at hps
      simp only [Prod.mk.injEq, Except.ok.injEq] at hps
      obtain ⟨hps1, hps2⟩ := hps
      subst hps1
      subst hps2
      refine ⟨?_, ?_, ?_, ?_, ?_⟩
      · rw [orderPreSave_status]
      · rw [orderPreSave_cancellationReason]
      · rw [orderPreSave_cancelledAt]
      · intro it hit p hp ht
        have := heff.2 it hit p hp ht
        exact this
      · intro reason2 now2
        rw [cancelOrder, if_pos]
        rw [orderPreSave_status]
        right
        rfl

/-- Witness for C8: cancelling the confirmed witness order succeeds, marks
it cancelled, and a second cancel fails with the store unchanged. -/
theorem cancelOrder_spec_witness :
    ¬(oCancel.status = "delivered" ∨ oCancel.status = "cancelled") ∧
    ∃ ps2 o2, cancelOrder [pW] [] dW oCancel "late" 9 = (ps2, Except.ok o2) ∧
      o2.status = "cancelled" ∧
      o2.cancellationReason = some "late" ∧
      cancelOrder ps2 [] dW o2 "again" 10 =
        (ps2, Except.error CancelErr.cannotCancel) := by
  have h := cancelOrder_spec [pW] [] dW oCancel "late" 9
    (by intro q hq; simp only [List.mem_singleton] at hq; subst hq; norm_num [pW])
    (by intro it hit; simp only [oCancel, List.mem_singleton] at hit; subst hit; norm_num [oiW])
    (by simp [oCancel])
  have hok := h.1.mp (by decide)
  obtain ⟨ps2, o2, heq⟩ := hok
  have hprops := h.2.2 ps2 o2 heq
  exact ⟨by decide, ps2, o2, heq, hprops.1, hprops.2.1,
    hprops.2.2.2.2 "again" 10⟩
